import Mathlib

/-!
A verification development for the ordered data-source registry of the
`DataSourceCollection` module (src/Source/DynamicScene/DataSourceCollection.js).

Modelling conventions
=====================

* A data-source handle is identified by a natural number; the registry only
  compares handles by identity, so a `Nat` id is a faithful stand-in for an
  object reference.
* The handle's externally mutable `show` flag is an environment
  `showOf : Nat → Bool` passed to every operation that reads it; callers may
  change it between operations, which the model expresses by calling the next
  operation with a different environment.
* The per-handle shadow fields that the JS code stores on the handle objects
  (`_show`, the last observed visibility, and `_dataSourceIndex`, the last
  assigned position) are kept as maps from handle id to value inside the
  collection state.  They start out `none` ("undefined") and are never
  deleted, exactly as the JS fields persist on the handle objects.
* Every observable effect (event emission through one of the four `Event`
  channels, and a handle's `destroy()` call) is recorded, in the order the
  code performs it, in a trace of `DataSourceEvent`s returned next to the new
  state.
* Fallible operations return `Except String`, the error string being the
  `DeveloperError` message thrown by the code.
* A JS function without a `return` statement returns `undefined`; where a
  claim is about a return value this is modelled as an explicit
  `Option Nat` result, `none` standing for `undefined`.
-/

/-- One observable effect of a collection operation: an emission on one of the
four event channels (`dataSourceAdded`, `dataSourceRemoved`, `dataSourceMoved`,
`dataSourceShownOrHidden`), or the invocation of a handle's `destroy()`. -/
inductive DataSourceEvent where
  | added (dataSource index : Nat)
  | removed (dataSource index : Nat)
  | moved (dataSource newIndex oldIndex : Nat)
  | shownOrHidden (dataSource index : Nat) (shown : Bool)
  | destroyedDataSource (dataSource : Nat)
deriving DecidableEq, Repr

/-- State of a `DataSourceCollection`: the ordered sequence `_dataSources` of
handle ids, together with the per-handle shadow fields that the JS code keeps
on the handle objects (`_show` and `_dataSourceIndex`), and the destroyed
flag.

The `destroyed` flag is modelled from the spec: the JS code calls
`destroyObject(this)` (Core/destroyObject, not part of this excerpt), which
makes every method other than `isDestroyed` throw; the spec describes this as
marking the registry unusable so that any later call fails. -/
structure DataSourceCollection where
  _dataSources : List Nat
  _show : Nat → Option Bool
  _dataSourceIndex : Nat → Option Nat
  destroyed : Bool

/-- A freshly constructed collection: empty sequence, all shadow fields
undefined, not destroyed. -/
def DataSourceCollection.empty : DataSourceCollection :=
  { _dataSources := [], _show := fun _ => none,
    _dataSourceIndex := fun _ => none, destroyed := false }

/-- The `DeveloperError` message thrown by any method of a destroyed object. -/
def destroyedError : String :=
  "This object was destroyed, i.e., destroy() was called."

namespace CesiumMath

/-- Modelled from the spec: `CesiumMath.clamp` (Core/Math, not part of this
excerpt) clamps a value into `[low, high]`; the spec states that the swap
helper's index arguments "are clamped into [0, length-1]". -/
def clamp (value low high : Int) : Int :=
  min (max value low) high

end CesiumMath

/-- `defaultValue(a, b)` (Core/defaultValue, not part of this excerpt):
returns `a` when it is defined and `b` otherwise, as its standard Cesium
semantics and the spec's default-argument notation (`destroy = true`)
describe. -/
def defaultValue {α : Type} (a : Option α) (b : α) : α :=
  a.getD b

/-- The walk of `DataSourceCollection.prototype._update`: traverses the
sequence from position `i`, assigning `_dataSourceIndex` to each handle,
comparing current `show` against the `_show` shadow, recording a handle for
notification when they differ and `_show` was defined, and updating `_show`.
Returns the final `_show` map, the final `_dataSourceIndex` map, and the
recorded handles in walk order. -/
def updateLoop (showOf : Nat → Bool) :
    List Nat → Nat → (Nat → Option Bool) → (Nat → Option Nat) →
    (Nat → Option Bool) × (Nat → Option Nat) × List Nat
  | [], _, sh, pos => (sh, pos, [])
  | d :: rest, i, sh, pos =>
    let pos1 : Nat → Option Nat := fun x => if x = d then some i else pos x
    if sh d ≠ some (showOf d) then
      let sh1 : Nat → Option Bool :=
        fun x => if x = d then some (showOf d) else sh x
      let r := updateLoop showOf rest (i + 1) sh1 pos1
      if (sh d).isSome then (r.1, r.2.1, d :: r.2.2) else r
    else
      updateLoop showOf rest (i + 1) sh pos1

/-- `DataSourceCollection.prototype._update`: runs the walk over the whole
sequence, then emits one `shownOrHidden` event per recorded handle, in walk
order, reading the handle's `_dataSourceIndex` and `show` at emission time. -/
def DataSourceCollection._update (showOf : Nat → Bool)
    (c : DataSourceCollection) :
    DataSourceCollection × List DataSourceEvent :=
  let r := updateLoop showOf c._dataSources 0 c._show c._dataSourceIndex
  ({ c with _show := r.1, _dataSourceIndex := r.2.1 },
    r.2.2.map fun d => .shownOrHidden d ((r.2.1 d).getD 0) (showOf d))

/-- `DataSourceCollection.prototype.add`.  `dataSource = none` models calling
with an undefined argument; `index = none` models omitting the index.  The
result carries the new state, the event trace (the `_update` pass emissions
followed by the `added` event), and the JS return value, which is `none`
(`undefined`) because the function body has no `return` statement. -/
def DataSourceCollection.add (showOf : Nat → Bool) (c : DataSourceCollection)
    (dataSource : Option Nat) (index : Option Int) :
    Except String (DataSourceCollection × List DataSourceEvent × Option Nat) :=
  if c.destroyed then .error destroyedError else
  match dataSource with
  | none => .error "dataSource is required."
  | some d =>
    match index with
    | none =>
      let i := c._dataSources.length
      let r := DataSourceCollection._update showOf
        { c with _dataSources := c._dataSources ++ [d] }
      .ok (r.1, r.2 ++ [.added d i], none)
    | some k =>
      if k < 0 then .error "index must be greater than or equal to zero."
      else if (c._dataSources.length : Int) < k then
        .error "index must be less than or equal to the number of data sources."
      else
        let r := DataSourceCollection._update showOf
          { c with _dataSources := c._dataSources.insertIdx k.toNat d }
        .ok (r.1, r.2 ++ [.added d k.toNat], none)

/-- `DataSourceCollection.prototype.remove`.  Returns the new state, the JS
boolean return value, and the trace: on a successful removal the `_update`
emissions, then the `removed` event, then (when destroying) the handle's
`destroy()` call. -/
def DataSourceCollection.remove (showOf : Nat → Bool)
    (c : DataSourceCollection) (dataSource : Nat) (destroy : Option Bool) :
    Except String (DataSourceCollection × Bool × List DataSourceEvent) :=
  if c.destroyed then .error destroyedError else
  let destroyFlag := defaultValue destroy true
  if dataSource ∈ c._dataSources then
    let index := c._dataSources.indexOf dataSource
    let r := DataSourceCollection._update showOf
      { c with _dataSources := c._dataSources.eraseIdx index }
    .ok (r.1, true,
      r.2 ++ [.removed dataSource index] ++
        (if destroyFlag then [.destroyedDataSource dataSource] else []))
  else
    .ok (c, false, [])

/-- The loop of `DataSourceCollection.prototype.removeAll`: for each handle in
order, emit its `removed` event at its current index and then (when
destroying) call its `destroy()`. -/
def removeAllLoop (dataSources : List Nat) (i : Nat) (destroyFlag : Bool) :
    List DataSourceEvent :=
  match dataSources with
  | [] => []
  | d :: rest =>
    .removed d i ::
      ((if destroyFlag then [.destroyedDataSource d] else []) ++
        removeAllLoop rest (i + 1) destroyFlag)

/-- `DataSourceCollection.prototype.removeAll`: runs the per-handle loop and
then replaces the sequence by the empty array; the `_update` pass never
runs, so `_show` and `_dataSourceIndex` are untouched. -/
def DataSourceCollection.removeAll (c : DataSourceCollection)
    (destroy : Option Bool) :
    Except String (DataSourceCollection × List DataSourceEvent) :=
  if c.destroyed then .error destroyedError else
  let destroyFlag := defaultValue destroy true
  .ok ({ c with _dataSources := [] },
    removeAllLoop c._dataSources 0 destroyFlag)

/-- `DataSourceCollection.prototype.indexOf`: the index of the first
occurrence of the handle, `-1` when absent (the JS `Array.indexOf`
convention). -/
def DataSourceCollection.indexOf (c : DataSourceCollection)
    (dataSource : Nat) : Except String Int :=
  if c.destroyed then .error destroyedError else
  .ok (if dataSource ∈ c._dataSources
    then (c._dataSources.indexOf dataSource : Int) else -1)

/-- `DataSourceCollection.prototype.contains`: `indexOf ≠ -1`. -/
def DataSourceCollection.contains (c : DataSourceCollection)
    (dataSource : Nat) : Except String Bool :=
  match c.indexOf dataSource with
  | .error e => .error e
  | .ok i => .ok (i != -1)

/-- `DataSourceCollection.prototype.get`: throws when `index` is undefined,
otherwise plain array indexing (out-of-range or negative yields
`undefined`, modelled as `none`). -/
def DataSourceCollection.get (c : DataSourceCollection)
    (index : Option Int) : Except String (Option Nat) :=
  if c.destroyed then .error destroyedError else
  match index with
  | none => .error "index is required."
  | some k => .ok (if k < 0 then none else c._dataSources[k.toNat]?)

/-- `DataSourceCollection.prototype.getLength`. -/
def DataSourceCollection.getLength (c : DataSourceCollection) :
    Except String Nat :=
  if c.destroyed then .error destroyedError else
  .ok c._dataSources.length

/-- The module-private `getDataSourceIndex` helper: throws when the handle
argument is undefined or not a member, otherwise returns its index. -/
def getDataSourceIndex (dataSources : List Nat) (dataSource : Option Nat) :
    Except String Nat :=
  match dataSource with
  | none => .error "dataSource is required."
  | some d =>
    if d ∈ dataSources then .ok (dataSources.indexOf d)
    else .error "dataSource is not in this collection."

/-- The module-private `swapDataSources` helper: clamps both indices into
`[0, length-1]`, returns silently when they coincide, otherwise swaps the two
array slots, runs `_update`, and emits a `moved` event carrying the handle
that was at slot `i` before the swap, its new index `j` and its old index
`i`. -/
def swapDataSources (showOf : Nat → Bool) (c : DataSourceCollection)
    (i j : Int) : DataSourceCollection × List DataSourceEvent :=
  let arr := c._dataSources
  let i1 := CesiumMath.clamp i 0 ((arr.length : Int) - 1)
  let j1 := CesiumMath.clamp j 0 ((arr.length : Int) - 1)
  if i1 = j1 then (c, [])
  else
    let ii := i1.toNat
    let jj := j1.toNat
    let temp := arr.getD ii 0
    let arr1 := (arr.set ii (arr.getD jj 0)).set jj temp
    let r := DataSourceCollection._update showOf { c with _dataSources := arr1 }
    (r.1, r.2 ++ [.moved temp jj ii])

/-- `DataSourceCollection.prototype.raise`: swap the handle with its
successor. -/
def DataSourceCollection.raise (showOf : Nat → Bool)
    (c : DataSourceCollection) (dataSource : Option Nat) :
    Except String (DataSourceCollection × List DataSourceEvent) :=
  if c.destroyed then .error destroyedError else
  match getDataSourceIndex c._dataSources dataSource with
  | .error e => .error e
  | .ok index => .ok (swapDataSources showOf c (index : Int) ((index : Int) + 1))

/-- `DataSourceCollection.prototype.lower`: swap the handle with its
predecessor. -/
def DataSourceCollection.lower (showOf : Nat → Bool)
    (c : DataSourceCollection) (dataSource : Option Nat) :
    Except String (DataSourceCollection × List DataSourceEvent) :=
  if c.destroyed then .error destroyedError else
  match getDataSourceIndex c._dataSources dataSource with
  | .error e => .error e
  | .ok index => .ok (swapDataSources showOf c (index : Int) ((index : Int) - 1))

/-- `DataSourceCollection.prototype.raiseToTop`: early return when the handle
is already last; otherwise splice it out, push it, run `_update`, and emit
`moved` with the new index `length - 1` (read after the mutation, which keeps
the length) and the old index.  In the `.ok` branch of `getDataSourceIndex`
the handle argument is necessarily defined, so `getD 0` never supplies its
default. -/
def DataSourceCollection.raiseToTop (showOf : Nat → Bool)
    (c : DataSourceCollection) (dataSource : Option Nat) :
    Except String (DataSourceCollection × List DataSourceEvent) :=
  if c.destroyed then .error destroyedError else
  match getDataSourceIndex c._dataSources dataSource with
  | .error e => .error e
  | .ok index =>
    if index = c._dataSources.length - 1 then .ok (c, [])
    else
      let d := dataSource.getD 0
      let arr1 := c._dataSources.eraseIdx index ++ [d]
      let r := DataSourceCollection._update showOf { c with _dataSources := arr1 }
      .ok (r.1, r.2 ++ [.moved d (arr1.length - 1) index])

/-- `DataSourceCollection.prototype.lowerToBottom`: early return when the
handle is already first; otherwise splice it out, splice it back in at 0, run
`_update`, and emit `moved` with new index 0 and the old index. -/
def DataSourceCollection.lowerToBottom (showOf : Nat → Bool)
    (c : DataSourceCollection) (dataSource : Option Nat) :
    Except String (DataSourceCollection × List DataSourceEvent) :=
  if c.destroyed then .error destroyedError else
  match getDataSourceIndex c._dataSources dataSource with
  | .error e => .error e
  | .ok index =>
    if index = 0 then .ok (c, [])
    else
      let d := dataSource.getD 0
      let arr1 := d :: c._dataSources.eraseIdx index
      let r := DataSourceCollection._update showOf { c with _dataSources := arr1 }
      .ok (r.1, r.2 ++ [.moved d 0 index])

/-- `DataSourceCollection.prototype.isDestroyed`.  The prototype method
returns `false`; after `destroy()` the object's methods are replaced
(Core/destroyObject) so that it returns `true` — modelled by reading the
destroyed flag. -/
def DataSourceCollection.isDestroyed (c : DataSourceCollection) : Bool :=
  c.destroyed

/-- `DataSourceCollection.prototype.destroy`: `removeAll(true)` followed by
marking the object destroyed (`destroyObject`, modelled from the spec as
setting the flag that makes every later call fail). -/
def DataSourceCollection.destroy (c : DataSourceCollection) :
    Except String (DataSourceCollection × List DataSourceEvent) :=
  if c.destroyed then .error destroyedError else
  match c.removeAll (some true) with
  | .error e => .error e
  | .ok r => .ok ({ r.1 with destroyed := true }, r.2)

/-- The structural mutations of the registry, used to state invariants that
range over every mutating operation. -/
inductive MutOp where
  | add (dataSource : Option Nat) (index : Option Int)
  | remove (dataSource : Nat) (destroy : Option Bool)
  | removeAll (destroy : Option Bool)
  | raise (dataSource : Option Nat)
  | lower (dataSource : Option Nat)
  | raiseToTop (dataSource : Option Nat)
  | lowerToBottom (dataSource : Option Nat)

/-- Dispatch a structural mutation, forgetting the operation-specific return
value and keeping the new state and the event trace. -/
def applyOp (showOf : Nat → Bool) (c : DataSourceCollection) :
    MutOp → Except String (DataSourceCollection × List DataSourceEvent)
  | .add d i => (c.add showOf d i).map fun r => (r.1, r.2.1)
  | .remove d dest => (c.remove showOf d dest).map fun r => (r.1, r.2.2)
  | .removeAll dest => c.removeAll dest
  | .raise d => c.raise showOf d
  | .lower d => c.lower showOf d
  | .raiseToTop d => c.raiseToTop showOf d
  | .lowerToBottom d => c.lowerToBottom showOf d

/-- The position-consistency invariant of the spec: every handle's stored
`_dataSourceIndex` equals its current index in the sequence. -/
def PosOk (c : DataSourceCollection) : Prop :=
  ∀ (i : Nat) (hi : i < c._dataSources.length),
    c._dataSourceIndex (c._dataSources.get ⟨i, hi⟩) = some i

/-- The array after `swapDataSources` has exchanged slots `ii` and `jj`. -/
def swapList (l : List Nat) (ii jj : Nat) : List Nat :=
  (l.set ii (l.getD jj 0)).set jj (l.getD ii 0)

/-- Projects the JS return value out of a call to `add`. -/
def addReturnValue
    (r : Except String
      (DataSourceCollection × List DataSourceEvent × Option Nat)) :
    Option (Option Nat) :=
  match r with
  | .ok x => some x.2.2
  | .error _ => none

/-- The collection obtained by adding handle 5 to the empty collection with
the index omitted; used to instantiate the amended C1 theorem. -/
def addWitnessState : DataSourceCollection :=
  match DataSourceCollection.empty.add (fun _ => true) (some 5) none with
  | .ok r => r.1
  | .error _ => DataSourceCollection.empty

/-- The collection obtained by adding handle 0 to the empty collection twice
in a row; the second `add` does not check membership. -/
def duplicateAddState : DataSourceCollection :=
  match DataSourceCollection.empty.add (fun _ => true) (some 0) none with
  | .ok r =>
    match r.1.add (fun _ => true) (some 0) none with
    | .ok r2 => r2.1
    | .error _ => DataSourceCollection.empty
  | .error _ => DataSourceCollection.empty

/-- A two-element collection used to instantiate universally quantified
claim theorems. -/
def twoElementCollection : DataSourceCollection :=
  { _dataSources := [1, 2], _show := fun _ => some true,
    _dataSourceIndex := fun x => if x = 1 then some 0 else some 1,
    destroyed := false }

/-- The state reached by adding the fresh handle 3 to the two-element
collection. -/
def nodupWitnessState : DataSourceCollection :=
  match applyOp (fun _ => true) twoElementCollection
      (MutOp.add (some 3) none) with
  | .ok r => r.1
  | .error _ => DataSourceCollection.empty

/-- A one-element collection holding handle 3 with consistent shadow
fields. -/
def singletonCollection : DataSourceCollection :=
  { _dataSources := [3], _show := fun x => if x = 3 then some true else none,
    _dataSourceIndex := fun x => if x = 3 then some 0 else none,
    destroyed := false }

/-- The collection reached by adding A = 0 (shown), B = 1 (hidden) and
C = 2 (shown), in that order, used for the visibility-transition example. -/
def visibilityExampleCollection : DataSourceCollection :=
  { _dataSources := [0, 1, 2],
    _show := fun x =>
      if x = 0 then some true
      else if x = 1 then some false
      else if x = 2 then some true
      else none,
    _dataSourceIndex := fun x =>
      if x = 0 then some 0
      else if x = 1 then some 1
      else if x = 2 then some 2
      else none,
    destroyed := false }

/-- The visibility environment of the A/B/C example: A = 0 and C = 2 shown,
B = 1 hidden. -/
def envABC : Nat → Bool := fun x => x != 1

/-! ## Properties of the re-index / visibility walk -/

/-- A handle is reported by the walk exactly when its last observed visibility
is defined and differs from its current one. -/
def shTransition (sh : Nat → Option Bool) (showOf : Nat → Bool) (d : Nat) :
    Bool :=
  (sh d).isSome && (sh d != some (showOf d))

/-- The `_show` map after one walk step. -/
def shStep (showOf : Nat → Bool) (sh : Nat → Option Bool) (d : Nat) :
    Nat → Option Bool :=
  fun x => if x = d then some (showOf d) else sh x

/-- The `_dataSourceIndex` map after one walk step. -/
def posStep (pos : Nat → Option Nat) (d i : Nat) : Nat → Option Nat :=
  fun x => if x = d then some i else pos x

theorem updateLoop_cons (showOf : Nat → Bool) (d : Nat) (rest : List Nat)
    (i : Nat) (sh : Nat → Option Bool) (pos : Nat → Option Nat) :
    updateLoop showOf (d :: rest) i sh pos =
      if sh d ≠ some (showOf d) then
        (fun r => if (sh d).isSome then (r.1, r.2.1, d :: r.2.2) else r)
          (updateLoop showOf rest (i + 1) (shStep showOf sh d)
            (posStep pos d i))
      else
        updateLoop showOf rest (i + 1) sh (posStep pos d i) := rfl

theorem updateLoop_cons_show (showOf : Nat → Bool) (d : Nat) (rest : List Nat)
    (i : Nat) (sh : Nat → Option Bool) (pos : Nat → Option Nat) :
    (updateLoop showOf (d :: rest) i sh pos).1 =
      if sh d ≠ some (showOf d) then
        (updateLoop showOf rest (i + 1) (shStep showOf sh d)
          (posStep pos d i)).1
      else
        (updateLoop showOf rest (i + 1) sh (posStep pos d i)).1 := by
  rw [updateLoop_cons]
  by_cases hc : sh d ≠ some (showOf d)
  · rw [if_pos hc, if_pos hc]
    by_cases hs : (sh d).isSome <;> simp [hs]
  · rw [if_neg hc, if_neg hc]

theorem updateLoop_cons_pos (showOf : Nat → Bool) (d : Nat) (rest : List Nat)
    (i : Nat) (sh : Nat → Option Bool) (pos : Nat → Option Nat) :
    (updateLoop showOf (d :: rest) i sh pos).2.1 =
      if sh d ≠ some (showOf d) then
        (updateLoop showOf rest (i + 1) (shStep showOf sh d)
          (posStep pos d i)).2.1
      else
        (updateLoop showOf rest (i + 1) sh (posStep pos d i)).2.1 := by
  rw [updateLoop_cons]
  by_cases hc : sh d ≠ some (showOf d)
  · rw [if_pos hc, if_pos hc]
    by_cases hs : (sh d).isSome <;> simp [hs]
  · rw [if_neg hc, if_neg hc]

theorem updateLoop_cons_tr (showOf : Nat → Bool) (d : Nat) (rest : List Nat)
    (i : Nat) (sh : Nat → Option Bool) (pos : Nat → Option Nat) :
    (updateLoop showOf (d :: rest) i sh pos).2.2 =
      if sh d ≠ some (showOf d) then
        (if (sh d).isSome then
          d :: (updateLoop showOf rest (i + 1) (shStep showOf sh d)
            (posStep pos d i)).2.2
        else
          (updateLoop showOf rest (i + 1) (shStep showOf sh d)
            (posStep pos d i)).2.2)
      else
        (updateLoop showOf rest (i + 1) sh (posStep pos d i)).2.2 := by
  rw [updateLoop_cons]
  by_cases hc : sh d ≠ some (showOf d)
  · rw [if_pos hc, if_pos hc]
    by_cases hs : (sh d).isSome <;> simp [hs]
  · rw [if_neg hc, if_neg hc]

theorem updateLoop_show_eq (showOf : Nat → Bool) :
    ∀ (l : List Nat) (i : Nat) (sh : Nat → Option Bool)
      (pos : Nat → Option Nat) (x : Nat),
      (updateLoop showOf l i sh pos).1 x =
        if x ∈ l then some (showOf x) else sh x := by
  intro l
  induction l with
  | nil => intro i sh pos x; simp [updateLoop]
  | cons d rest ih =>
    intro i sh pos x
    rw [updateLoop_cons_show]
    by_cases hc : sh d ≠ some (showOf d)
    · rw [if_pos hc, ih]
      by_cases hx : x ∈ rest
      · simp [hx]
      · by_cases hxd : x = d
        · subst hxd; simp [hx, shStep]
        · simp [hx, hxd, shStep]
    · rw [if_neg hc, ih]
      push_neg at hc
      by_cases hx : x ∈ rest
      · simp [hx]
      · by_cases hxd : x = d
        · subst hxd; simp [hx, hc]
        · simp [hx, hxd]

theorem updateLoop_pos_not_mem (showOf : Nat → Bool) :
    ∀ (l : List Nat) (i : Nat) (sh : Nat → Option Bool)
      (pos : Nat → Option Nat) (x : Nat), x ∉ l →
      (updateLoop showOf l i sh pos).2.1 x = pos x := by
  intro l
  induction l with
  | nil => intro i sh pos x _; simp [updateLoop]
  | cons d rest ih =>
    intro i sh pos x hx
    have hxd : x ≠ d := fun h => hx (h ▸ List.mem_cons_self d rest)
    have hxr : x ∉ rest := fun h => hx (List.mem_cons_of_mem d h)
    rw [updateLoop_cons_pos]
    by_cases hc : sh d ≠ some (showOf d)
    · rw [if_pos hc, ih _ _ _ _ hxr]
      simp [posStep, hxd]
    · rw [if_neg hc, ih _ _ _ _ hxr]
      simp [posStep, hxd]

theorem updateLoop_pos_mem (showOf : Nat → Bool) :
    ∀ (l : List Nat), l.Nodup →
      ∀ (i : Nat) (sh : Nat → Option Bool) (pos : Nat → Option Nat)
        (x : Nat), x ∈ l →
      (updateLoop showOf l i sh pos).2.1 x = some (i + l.indexOf x) := by
  intro l
  induction l with
  | nil => intro _ i sh pos x hx; exact absurd hx (List.not_mem_nil x)
  | cons d rest ih =>
    intro hnd i sh pos x hx
    rw [List.nodup_cons] at hnd
    rw [updateLoop_cons_pos]
    by_cases hxd : x = d
    · subst hxd
      have hxr : x ∉ rest := hnd.1
      by_cases hc : sh x ≠ some (showOf x)
      · rw [if_pos hc, updateLoop_pos_not_mem _ _ _ _ _ _ hxr]
        simp [posStep, List.indexOf_cons_self]
      · rw [if_neg hc, updateLoop_pos_not_mem _ _ _ _ _ _ hxr]
        simp [posStep, List.indexOf_cons_self]
    · have hxr : x ∈ rest := by
        rcases List.mem_cons.mp hx with h | h
        · exact absurd h hxd
        · exact h
      have hidx : List.indexOf x (d :: rest) = (List.indexOf x rest) + 1 := by
        rw [List.indexOf_cons_ne _ (Ne.symm hxd)]
      by_cases hc : sh d ≠ some (showOf d)
      · rw [if_pos hc, ih hnd.2 _ _ _ _ hxr, hidx]
        congr 1
        omega
      · rw [if_neg hc, ih hnd.2 _ _ _ _ hxr, hidx]
        congr 1
        omega

theorem updateLoop_tr_congr (showOf : Nat → Bool) :
    ∀ (l : List Nat) (i i' : Nat) (sh sh' : Nat → Option Bool)
      (pos pos' : Nat → Option Nat),
      (∀ x ∈ l, sh x = sh' x) →
      (updateLoop showOf l i sh pos).2.2 =
        (updateLoop showOf l i' sh' pos').2.2 := by
  intro l
  induction l with
  | nil => intro i i' sh sh' pos pos' _; simp [updateLoop]
  | cons d rest ih =>
    intro i i' sh sh' pos pos' hagree
    have hd : sh d = sh' d := hagree d (List.mem_cons_self d rest)
    have hrest : ∀ x ∈ rest, shStep showOf sh d x = shStep showOf sh' d x := by
      intro x hx
      by_cases hxd : x = d <;>
        simp [shStep, hxd, hagree x (List.mem_cons_of_mem d hx)]
    rw [updateLoop_cons_tr, updateLoop_cons_tr]
    by_cases hc : sh d ≠ some (showOf d)
    · have hc' : sh' d ≠ some (showOf d) := hd ▸ hc
      rw [if_pos hc, if_pos hc', hd]
      have heq := ih (i + 1) (i' + 1) _ _ (posStep pos d i) (posStep pos' d i')
        hrest
      by_cases hs : (sh' d).isSome
      · rw [if_pos hs, if_pos hs, heq]
      · rw [if_neg hs, if_neg hs, heq]
    · have hc' : ¬ sh' d ≠ some (showOf d) := hd ▸ hc
      rw [if_neg hc, if_neg hc']
      exact ih _ _ _ _ _ _ fun x hx => hagree x (List.mem_cons_of_mem d hx)

theorem updateLoop_tr_eq (showOf : Nat → Bool) :
    ∀ (l : List Nat), l.Nodup →
      ∀ (i : Nat) (sh : Nat → Option Bool) (pos : Nat → Option Nat),
      (updateLoop showOf l i sh pos).2.2 =
        l.filter (shTransition sh showOf) := by
  intro l
  induction l with
  | nil => intro _ i sh pos; simp [updateLoop]
  | cons d rest ih =>
    intro hnd i sh pos
    rw [List.nodup_cons] at hnd
    rw [updateLoop_cons_tr, List.filter_cons]
    have hcong : (updateLoop showOf rest (i + 1) (shStep showOf sh d)
        (posStep pos d i)).2.2 =
        (updateLoop showOf rest (i + 1) sh (posStep pos d i)).2.2 := by
      apply updateLoop_tr_congr
      intro x hx
      have hxd : x ≠ d := fun h => hnd.1 (h ▸ hx)
      simp [shStep, hxd]
    by_cases hc : sh d ≠ some (showOf d)
    · rw [if_pos hc]
      by_cases hs : (sh d).isSome
      · have htr : shTransition sh showOf d = true := by
          simp only [shTransition, hs, Bool.true_and, bne_iff_ne]
          exact hc
        rw [if_pos hs, htr, if_pos rfl, hcong, ih hnd.2]
      · have htr : shTransition sh showOf d = false := by
          simp only [shTransition, Bool.and_eq_false_iff]
          left
          simpa using hs
        rw [if_neg hs, htr, hcong, ih hnd.2]
        simp
    · push_neg at hc
      rw [if_neg (by simp [hc])]
      have htr : shTransition sh showOf d = false := by
        simp [shTransition, hc]
      rw [htr, ih hnd.2]
      simp

theorem update_dataSources (showOf : Nat → Bool) (c : DataSourceCollection) :
    (DataSourceCollection._update showOf c).1._dataSources = c._dataSources :=
  rfl

theorem update_destroyed (showOf : Nat → Bool) (c : DataSourceCollection) :
    (DataSourceCollection._update showOf c).1.destroyed = c.destroyed :=
  rfl

theorem update_show_eq (showOf : Nat → Bool) (c : DataSourceCollection)
    (x : Nat) :
    (DataSourceCollection._update showOf c).1._show x =
      if x ∈ c._dataSources then some (showOf x) else c._show x :=
  updateLoop_show_eq showOf c._dataSources 0 c._show c._dataSourceIndex x

theorem update_events_eq (showOf : Nat → Bool) (c : DataSourceCollection)
    (hnd : c._dataSources.Nodup) :
    (DataSourceCollection._update showOf c).2 =
      (c._dataSources.filter (shTransition c._show showOf)).map
        (fun d => DataSourceEvent.shownOrHidden d
          (c._dataSources.indexOf d) (showOf d)) := by
  simp only [DataSourceCollection._update]
  rw [updateLoop_tr_eq showOf _ hnd]
  apply List.map_congr_left
  intro d hd
  rw [List.mem_filter] at hd
  rw [updateLoop_pos_mem showOf _ hnd _ _ _ _ hd.1]
  simp

theorem update_events_shape (showOf : Nat → Bool) (c : DataSourceCollection) :
    ∀ e ∈ (DataSourceCollection._update showOf c).2,
      ∃ x i s, e = DataSourceEvent.shownOrHidden x i s := by
  intro e he
  simp only [DataSourceCollection._update, List.mem_map] at he
  obtain ⟨d, _, rfl⟩ := he
  exact ⟨d, _, _, rfl⟩

theorem update_posOk (showOf : Nat → Bool) (c : DataSourceCollection)
    (hnd : c._dataSources.Nodup) :
    PosOk (DataSourceCollection._update showOf c).1 := by
  intro i hi
  have hi' : i < c._dataSources.length := hi
  have hx : c._dataSources.get ⟨i, hi'⟩ ∈ c._dataSources := List.get_mem _ _ hi'
  show (updateLoop showOf c._dataSources 0 c._show c._dataSourceIndex).2.1
      (c._dataSources.get ⟨i, hi'⟩) = some i
  rw [updateLoop_pos_mem showOf _ hnd _ _ _ _ hx, List.get_eq_getElem,
    List.indexOf_getElem hnd]
  simp

/-! ## List helpers -/

theorem not_mem_eraseIdx_indexOf :
    ∀ (l : List Nat), l.Nodup → ∀ d ∈ l, d ∉ l.eraseIdx (l.indexOf d) := by
  intro l
  induction l with
  | nil => simp
  | cons a rest ih =>
    intro hnd d hd
    rw [List.nodup_cons] at hnd
    by_cases hda : d = a
    · subst hda
      rw [List.indexOf_cons_self]
      simpa using hnd.1
    · have hdr : d ∈ rest := by
        rcases List.mem_cons.mp hd with h | h
        · exact absurd h hda
        · exact h
      rw [List.indexOf_cons_ne _ (Ne.symm hda)]
      intro hmem
      rw [Nat.succ_eq_add_one, List.eraseIdx_cons_succ] at hmem
      rcases List.mem_cons.mp hmem with h | h
      · exact hda h
      · exact ih hnd.2 d hdr h

theorem nodup_eraseIdx (l : List Nat) (n : Nat) (hnd : l.Nodup) :
    (l.eraseIdx n).Nodup :=
  (List.eraseIdx_sublist l n).nodup hnd

theorem nodup_insertIdx (l : List Nat) (d : Nat) (n : Nat) (hn : n ≤ l.length)
    (hd : d ∉ l) (hnd : l.Nodup) : (List.insertIdx n d l).Nodup := by
  have hp := List.perm_insertIdx d l hn
  rw [hp.nodup_iff, List.nodup_cons]
  exact ⟨hd, hnd⟩

theorem count_swap (l : List Nat) (i j : Nat) (hi : i < l.length)
    (hj : j < l.length) (b : Nat) :
    List.count b ((l.set i (l.getD j 0)).set j (l.getD i 0)) =
      List.count b l := by
  have hj' : j < (l.set i (l.getD j 0)).length := by simpa using hj
  rw [List.count_set _ _ _ _ hj', List.count_set _ _ _ _ hi]
  have h1 : (l.set i (l.getD j 0))[j] = l[j] := by
    rw [List.getElem_set]
    split
    · next h => subst h; rw [List.getD_eq_getElem l 0 hj]
    · rfl
  rw [h1, List.getD_eq_getElem l 0 hi, List.getD_eq_getElem l 0 hj]
  have hA : (if (l[i] == b) = true then 1 else 0) ≤ List.count b l := by
    split
    · next h =>
      have hmem : b ∈ l := by
        have hm := List.getElem_mem hi
        rwa [beq_iff_eq.mp h] at hm
      have := List.count_pos_iff.mpr hmem
      omega
    · exact Nat.zero_le _
  omega

theorem nodup_swap (l : List Nat) (i j : Nat) (hi : i < l.length)
    (hj : j < l.length) (hnd : l.Nodup) :
    ((l.set i (l.getD j 0)).set j (l.getD i 0)).Nodup := by
  rw [List.nodup_iff_count_le_one] at hnd ⊢
  intro a
  rw [count_swap l i j hi hj a]
  exact hnd a

theorem removeAllLoop_eq :
    ∀ (l : List Nat) (i : Nat) (flag : Bool),
      removeAllLoop l i flag =
        (List.enumFrom i l).flatMap (fun p =>
          DataSourceEvent.removed p.2 p.1 ::
            (if flag then [DataSourceEvent.destroyedDataSource p.2]
             else [])) := by
  intro l
  induction l with
  | nil => intro i flag; simp [removeAllLoop]
  | cons d rest ih =>
    intro i flag
    simp [removeAllLoop, List.enumFrom_cons, ih]

/-! ## Evaluation equations for the operations -/

theorem add_none_eq (showOf : Nat → Bool) (c : DataSourceCollection)
    (index : Option Int) (hdes : c.destroyed = false) :
    c.add showOf none index = .error "dataSource is required." := by
  unfold DataSourceCollection.add
  rw [hdes]
  rfl

theorem add_append_eq (showOf : Nat → Bool) (c : DataSourceCollection)
    (d : Nat) (hdes : c.destroyed = false) :
    c.add showOf (some d) none =
      .ok ((DataSourceCollection._update showOf
              { c with _dataSources := c._dataSources ++ [d] }).1,
           (DataSourceCollection._update showOf
              { c with _dataSources := c._dataSources ++ [d] }).2 ++
             [DataSourceEvent.added d c._dataSources.length],
           none) := by
  unfold DataSourceCollection.add
  rw [hdes]
  rfl

theorem add_neg_index_eq (showOf : Nat → Bool) (c : DataSourceCollection)
    (d : Nat) (k : Int) (hdes : c.destroyed = false) (hk : k < 0) :
    c.add showOf (some d) (some k) =
      .error "index must be greater than or equal to zero." := by
  unfold DataSourceCollection.add
  rw [hdes]
  simp only [Bool.false_eq_true, if_false]
  rw [if_pos hk]

theorem add_big_index_eq (showOf : Nat → Bool) (c : DataSourceCollection)
    (d : Nat) (k : Int) (hdes : c.destroyed = false) (hk : ¬ k < 0)
    (hlen : (c._dataSources.length : Int) < k) :
    c.add showOf (some d) (some k) =
      .error
        "index must be less than or equal to the number of data sources." := by
  unfold DataSourceCollection.add
  rw [hdes]
  simp only [Bool.false_eq_true, if_false]
  rw [if_neg hk, if_pos hlen]

theorem add_insert_eq (showOf : Nat → Bool) (c : DataSourceCollection)
    (d : Nat) (k : Int) (hdes : c.destroyed = false) (hk : ¬ k < 0)
    (hlen : ¬ (c._dataSources.length : Int) < k) :
    c.add showOf (some d) (some k) =
      .ok ((DataSourceCollection._update showOf
              { c with _dataSources := c._dataSources.insertIdx k.toNat d }).1,
           (DataSourceCollection._update showOf
              { c with _dataSources := c._dataSources.insertIdx k.toNat d }).2 ++
             [DataSourceEvent.added d k.toNat],
           none) := by
  unfold DataSourceCollection.add
  rw [hdes]
  simp only [Bool.false_eq_true, if_false]
  rw [if_neg hk, if_neg hlen]

theorem remove_mem_eq (showOf : Nat → Bool) (c : DataSourceCollection)
    (d : Nat) (destroy : Option Bool) (hdes : c.destroyed = false)
    (hd : d ∈ c._dataSources) :
    c.remove showOf d destroy =
      .ok ((DataSourceCollection._update showOf
              { c with _dataSources :=
                  c._dataSources.eraseIdx (c._dataSources.indexOf d) }).1,
           true,
           (DataSourceCollection._update showOf
              { c with _dataSources :=
                  c._dataSources.eraseIdx (c._dataSources.indexOf d) }).2 ++
             [DataSourceEvent.removed d (c._dataSources.indexOf d)] ++
             (if defaultValue destroy true
              then [DataSourceEvent.destroyedDataSource d] else [])) := by
  unfold DataSourceCollection.remove
  rw [hdes]
  simp only [Bool.false_eq_true, if_false]
  rw [if_pos hd]

theorem remove_not_mem_eq (showOf : Nat → Bool) (c : DataSourceCollection)
    (d : Nat) (destroy : Option Bool) (hdes : c.destroyed = false)
    (hd : d ∉ c._dataSources) :
    c.remove showOf d destroy = .ok (c, false, []) := by
  unfold DataSourceCollection.remove
  rw [hdes]
  simp only [Bool.false_eq_true, if_false]
  rw [if_neg hd]

theorem removeAll_eq (c : DataSourceCollection) (destroy : Option Bool)
    (hdes : c.destroyed = false) :
    c.removeAll destroy =
      .ok ({ c with _dataSources := [] },
        removeAllLoop c._dataSources 0 (defaultValue destroy true)) := by
  unfold DataSourceCollection.removeAll
  rw [hdes]
  rfl

theorem raise_none_eq (showOf : Nat → Bool) (c : DataSourceCollection)
    (hdes : c.destroyed = false) :
    c.raise showOf none = .error "dataSource is required." := by
  unfold DataSourceCollection.raise
  rw [hdes]
  rfl

theorem lower_none_eq (showOf : Nat → Bool) (c : DataSourceCollection)
    (hdes : c.destroyed = false) :
    c.lower showOf none = .error "dataSource is required." := by
  unfold DataSourceCollection.lower
  rw [hdes]
  rfl

theorem getDataSourceIndex_mem_eq (l : List Nat) (d : Nat) (hd : d ∈ l) :
    getDataSourceIndex l (some d) = .ok (l.indexOf d) := by
  unfold getDataSourceIndex
  simp [hd]

theorem getDataSourceIndex_not_mem_eq (l : List Nat) (d : Nat) (hd : d ∉ l) :
    getDataSourceIndex l (some d) =
      .error "dataSource is not in this collection." := by
  unfold getDataSourceIndex
  simp [hd]

theorem raise_mem_eq (showOf : Nat → Bool) (c : DataSourceCollection)
    (d : Nat) (hdes : c.destroyed = false) (hd : d ∈ c._dataSources) :
    c.raise showOf (some d) =
      .ok (swapDataSources showOf c (c._dataSources.indexOf d : Int)
        ((c._dataSources.indexOf d : Int) + 1)) := by
  unfold DataSourceCollection.raise
  rw [hdes]
  simp only [Bool.false_eq_true, if_false]
  rw [getDataSourceIndex_mem_eq _ _ hd]

theorem raise_not_mem_eq (showOf : Nat → Bool) (c : DataSourceCollection)
    (d : Nat) (hdes : c.destroyed = false) (hd : d ∉ c._dataSources) :
    c.raise showOf (some d) =
      .error "dataSource is not in this collection." := by
  unfold DataSourceCollection.raise
  rw [hdes]
  simp only [Bool.false_eq_true, if_false]
  rw [getDataSourceIndex_not_mem_eq _ _ hd]

theorem lower_mem_eq (showOf : Nat → Bool) (c : DataSourceCollection)
    (d : Nat) (hdes : c.destroyed = false) (hd : d ∈ c._dataSources) :
    c.lower showOf (some d) =
      .ok (swapDataSources showOf c (c._dataSources.indexOf d : Int)
        ((c._dataSources.indexOf d : Int) - 1)) := by
  unfold DataSourceCollection.lower
  rw [hdes]
  simp only [Bool.false_eq_true, if_false]
  rw [getDataSourceIndex_mem_eq _ _ hd]

theorem lower_not_mem_eq (showOf : Nat → Bool) (c : DataSourceCollection)
    (d : Nat) (hdes : c.destroyed = false) (hd : d ∉ c._dataSources) :
    c.lower showOf (some d) =
      .error "dataSource is not in this collection." := by
  unfold DataSourceCollection.lower
  rw [hdes]
  simp only [Bool.false_eq_true, if_false]
  rw [getDataSourceIndex_not_mem_eq _ _ hd]

theorem raiseToTop_last_eq (showOf : Nat → Bool) (c : DataSourceCollection)
    (d : Nat) (hdes : c.destroyed = false) (hd : d ∈ c._dataSources)
    (hidx : c._dataSources.indexOf d = c._dataSources.length - 1) :
    c.raiseToTop showOf (some d) = .ok (c, []) := by
  unfold DataSourceCollection.raiseToTop
  rw [hdes]
  simp only [Bool.false_eq_true, if_false]
  rw [getDataSourceIndex_mem_eq _ _ hd]
  simp only []
  rw [if_pos hidx]

theorem raiseToTop_move_eq (showOf : Nat → Bool) (c : DataSourceCollection)
    (d : Nat) (hdes : c.destroyed = false) (hd : d ∈ c._dataSources)
    (hidx : c._dataSources.indexOf d ≠ c._dataSources.length - 1) :
    c.raiseToTop showOf (some d) =
      .ok ((DataSourceCollection._update showOf
              { c with _dataSources :=
                  c._dataSources.eraseIdx (c._dataSources.indexOf d) ++ [d] }).1,
           (DataSourceCollection._update showOf
              { c with _dataSources :=
                  c._dataSources.eraseIdx (c._dataSources.indexOf d) ++ [d] }).2 ++
             [DataSourceEvent.moved d
               ((c._dataSources.eraseIdx (c._dataSources.indexOf d) ++ [d]).length - 1)
               (c._dataSources.indexOf d)]) := by
  unfold DataSourceCollection.raiseToTop
  rw [hdes]
  simp only [Bool.false_eq_true, if_false]
  rw [getDataSourceIndex_mem_eq _ _ hd]
  simp only []
  rw [if_neg hidx]
  rfl

theorem raiseToTop_not_mem_eq (showOf : Nat → Bool) (c : DataSourceCollection)
    (d : Nat) (hdes : c.destroyed = false) (hd : d ∉ c._dataSources) :
    c.raiseToTop showOf (some d) =
      .error "dataSource is not in this collection." := by
  unfold DataSourceCollection.raiseToTop
  rw [hdes]
  simp only [Bool.false_eq_true, if_false]
  rw [getDataSourceIndex_not_mem_eq _ _ hd]

theorem lowerToBottom_first_eq (showOf : Nat → Bool) (c : DataSourceCollection)
    (d : Nat) (hdes : c.destroyed = false) (hd : d ∈ c._dataSources)
    (hidx : c._dataSources.indexOf d = 0) :
    c.lowerToBottom showOf (some d) = .ok (c, []) := by
  unfold DataSourceCollection.lowerToBottom
  rw [hdes]
  simp only [Bool.false_eq_true, if_false]
  rw [getDataSourceIndex_mem_eq _ _ hd]
  simp only []
  rw [if_pos hidx]

theorem lowerToBottom_move_eq (showOf : Nat → Bool) (c : DataSourceCollection)
    (d : Nat) (hdes : c.destroyed = false) (hd : d ∈ c._dataSources)
    (hidx : c._dataSources.indexOf d ≠ 0) :
    c.lowerToBottom showOf (some d) =
      .ok ((DataSourceCollection._update showOf
              { c with _dataSources :=
                  d :: c._dataSources.eraseIdx (c._dataSources.indexOf d) }).1,
           (DataSourceCollection._update showOf
              { c with _dataSources :=
                  d :: c._dataSources.eraseIdx (c._dataSources.indexOf d) }).2 ++
             [DataSourceEvent.moved d 0 (c._dataSources.indexOf d)]) := by
  unfold DataSourceCollection.lowerToBottom
  rw [hdes]
  simp only [Bool.false_eq_true, if_false]
  rw [getDataSourceIndex_mem_eq _ _ hd]
  simp only []
  rw [if_neg hidx]
  rfl

theorem lowerToBottom_not_mem_eq (showOf : Nat → Bool)
    (c : DataSourceCollection) (d : Nat) (hdes : c.destroyed = false)
    (hd : d ∉ c._dataSources) :
    c.lowerToBottom showOf (some d) =
      .error "dataSource is not in this collection." := by
  unfold DataSourceCollection.lowerToBottom
  rw [hdes]
  simp only [Bool.false_eq_true, if_false]
  rw [getDataSourceIndex_not_mem_eq _ _ hd]

theorem destroy_eq (c : DataSourceCollection) (hdes : c.destroyed = false) :
    c.destroy =
      .ok ({ c with _dataSources := [], destroyed := true },
        removeAllLoop c._dataSources 0 true) := by
  unfold DataSourceCollection.destroy
  rw [hdes]
  simp only [Bool.false_eq_true, if_false]
  rw [removeAll_eq c (some true) hdes]
  rfl

theorem add_destroyed_eq (showOf : Nat → Bool) (c : DataSourceCollection)
    (dataSource : Option Nat) (index : Option Int)
    (hdes : c.destroyed = true) :
    c.add showOf dataSource index = .error destroyedError := by
  unfold DataSourceCollection.add
  rw [hdes]
  rfl

theorem remove_destroyed_eq (showOf : Nat → Bool) (c : DataSourceCollection)
    (dataSource : Nat) (destroy : Option Bool) (hdes : c.destroyed = true) :
    c.remove showOf dataSource destroy = .error destroyedError := by
  unfold DataSourceCollection.remove
  rw [hdes]
  rfl

theorem removeAll_destroyed_eq (c : DataSourceCollection)
    (destroy : Option Bool) (hdes : c.destroyed = true) :
    c.removeAll destroy = .error destroyedError := by
  unfold DataSourceCollection.removeAll
  rw [hdes]
  rfl

theorem raise_destroyed_eq (showOf : Nat → Bool) (c : DataSourceCollection)
    (dataSource : Option Nat) (hdes : c.destroyed = true) :
    c.raise showOf dataSource = .error destroyedError := by
  unfold DataSourceCollection.raise
  rw [hdes]
  rfl

theorem lower_destroyed_eq (showOf : Nat → Bool) (c : DataSourceCollection)
    (dataSource : Option Nat) (hdes : c.destroyed = true) :
    c.lower showOf dataSource = .error destroyedError := by
  unfold DataSourceCollection.lower
  rw [hdes]
  rfl

theorem raiseToTop_destroyed_eq (showOf : Nat → Bool)
    (c : DataSourceCollection) (dataSource : Option Nat)
    (hdes : c.destroyed = true) :
    c.raiseToTop showOf dataSource = .error destroyedError := by
  unfold DataSourceCollection.raiseToTop
  rw [hdes]
  rfl

theorem lowerToBottom_destroyed_eq (showOf : Nat → Bool)
    (c : DataSourceCollection) (dataSource : Option Nat)
    (hdes : c.destroyed = true) :
    c.lowerToBottom showOf dataSource = .error destroyedError := by
  unfold DataSourceCollection.lowerToBottom
  rw [hdes]
  rfl

theorem indexOf_destroyed_eq (c : DataSourceCollection) (dataSource : Nat)
    (hdes : c.destroyed = true) :
    c.indexOf dataSource = .error destroyedError := by
  unfold DataSourceCollection.indexOf
  rw [hdes]
  rfl

theorem contains_destroyed_eq (c : DataSourceCollection) (dataSource : Nat)
    (hdes : c.destroyed = true) :
    c.contains dataSource = .error destroyedError := by
  unfold DataSourceCollection.contains
  rw [indexOf_destroyed_eq c dataSource hdes]

theorem get_destroyed_eq (c : DataSourceCollection) (index : Option Int)
    (hdes : c.destroyed = true) :
    c.get index = .error destroyedError := by
  unfold DataSourceCollection.get
  rw [hdes]
  rfl

theorem getLength_destroyed_eq (c : DataSourceCollection)
    (hdes : c.destroyed = true) :
    c.getLength = .error destroyedError := by
  unfold DataSourceCollection.getLength
  rw [hdes]
  rfl

theorem destroy_destroyed_eq (c : DataSourceCollection)
    (hdes : c.destroyed = true) :
    c.destroy = .error destroyedError := by
  unfold DataSourceCollection.destroy
  rw [hdes]
  rfl

theorem applyOp_destroyed_eq (showOf : Nat → Bool) (c : DataSourceCollection)
    (op : MutOp) (hdes : c.destroyed = true) :
    applyOp showOf c op = .error destroyedError := by
  cases op with
  | add d i =>
    simp [applyOp, add_destroyed_eq showOf c d i hdes, Except.map]
  | remove d dest =>
    simp [applyOp, remove_destroyed_eq showOf c d dest hdes, Except.map]
  | removeAll dest => simp [applyOp, removeAll_destroyed_eq c dest hdes]
  | raise d => simp [applyOp, raise_destroyed_eq showOf c d hdes]
  | lower d => simp [applyOp, lower_destroyed_eq showOf c d hdes]
  | raiseToTop d => simp [applyOp, raiseToTop_destroyed_eq showOf c d hdes]
  | lowerToBottom d =>
    simp [applyOp, lowerToBottom_destroyed_eq showOf c d hdes]

/-! ## Evaluation equations for the swap helper -/

theorem swapDataSources_top_noop (showOf : Nat → Bool)
    (c : DataSourceCollection) (idx : Nat)
    (hlen : 0 < c._dataSources.length)
    (hidx : idx = c._dataSources.length - 1) :
    swapDataSources showOf c (idx : Int) ((idx : Int) + 1) = (c, []) := by
  simp only [swapDataSources, CesiumMath.clamp]
  rw [if_pos (by omega)]

theorem swapDataSources_bottom_noop (showOf : Nat → Bool)
    (c : DataSourceCollection) (idx : Nat)
    (hlen : 0 < c._dataSources.length) (hidx : idx = 0) :
    swapDataSources showOf c (idx : Int) ((idx : Int) - 1) = (c, []) := by
  simp only [swapDataSources, CesiumMath.clamp]
  rw [if_pos (by omega)]

theorem swapDataSources_raise_eq (showOf : Nat -> Bool)
    (c : DataSourceCollection) (idx : Nat)
    (h : idx + 1 < c._dataSources.length) :
    swapDataSources showOf c (idx : Int) ((idx : Int) + 1) =
      ((DataSourceCollection._update showOf
          { c with _dataSources := swapList c._dataSources idx (idx + 1) }).1,
       (DataSourceCollection._update showOf
          { c with _dataSources := swapList c._dataSources idx (idx + 1) }).2 ++
         [DataSourceEvent.moved (c._dataSources.getD idx 0) (idx + 1) idx]) := by
  simp only [swapDataSources, CesiumMath.clamp]
  rw [if_neg (by omega)]
  have h1 : (min (max ((idx : Int)) 0) ((c._dataSources.length : Int) - 1)).toNat
      = idx := by omega
  have h2 : (min (max ((idx : Int) + 1) 0)
      ((c._dataSources.length : Int) - 1)).toNat = idx + 1 := by omega
  rw [h1, h2]
  rfl

theorem swapDataSources_lower_eq (showOf : Nat -> Bool)
    (c : DataSourceCollection) (idx : Nat) (h0 : 0 < idx)
    (h : idx < c._dataSources.length) :
    swapDataSources showOf c (idx : Int) ((idx : Int) - 1) =
      ((DataSourceCollection._update showOf
          { c with _dataSources := swapList c._dataSources idx (idx - 1) }).1,
       (DataSourceCollection._update showOf
          { c with _dataSources := swapList c._dataSources idx (idx - 1) }).2 ++
         [DataSourceEvent.moved (c._dataSources.getD idx 0) (idx - 1) idx]) := by
  simp only [swapDataSources, CesiumMath.clamp]
  rw [if_neg (by omega)]
  have h1 : (min (max ((idx : Int)) 0) ((c._dataSources.length : Int) - 1)).toNat
      = idx := by omega
  have h2 : (min (max ((idx : Int) - 1) 0)
      ((c._dataSources.length : Int) - 1)).toNat = idx - 1 := by omega
  rw [h1, h2]
  rfl

/-! ## Claim theorems -/

/-- C1 (counterexample): a successful `add` of handle 0 to the empty
collection with the index omitted returns `undefined` (`none`), not the
insertion index 0 (the previous length); the claim that `add` returns the
insertion index is therefore false. -/
theorem add_returns_undefined_counterexample :
    addReturnValue
        (DataSourceCollection.empty.add (fun _ => true) (some 0) none) =
      some none ∧
    some (none : Option Nat) ≠ some (some 0) :=
  ⟨rfl, by decide⟩

/-- C1 (amended): for every handle and every valid index argument (and when
the index is omitted), a successful `add` inserts the handle at the insertion
index — the previous length when appending — and emits, as its final event,
the `added` notification carrying that index; the call itself returns
`undefined` (`none`), not the index. -/
theorem add_eq_insert_and_emits_index
    (showOf : Nat → Bool) (c : DataSourceCollection) (d : Nat)
    (index : Option Int) (c' : DataSourceCollection)
    (evs : List DataSourceEvent) (ret : Option Nat)
    (h : c.add showOf (some d) index = .ok (c', evs, ret)) :
    ret = none ∧
    ∃ i : Nat,
      (index = none → i = c._dataSources.length) ∧
      (∀ k : Int, index = some k → (i : Int) = k) ∧
      evs.getLast? = some (DataSourceEvent.added d i) ∧
      c'._dataSources = c._dataSources.insertIdx i d ∧
      c'._dataSources.length = c._dataSources.length + 1 := by
  have hdes : c.destroyed = false := by
    cases hcd : c.destroyed
    · rfl
    · rw [add_destroyed_eq showOf c _ index hcd] at h
      simp at h
  cases index with
  | none =>
    rw [add_append_eq showOf c d hdes] at h
    simp only [Except.ok.injEq, Prod.mk.injEq] at h
    obtain ⟨hc', hevs, hret⟩ := h
    refine ⟨hret.symm, c._dataSources.length, fun _ => rfl, ?_, ?_, ?_, ?_⟩
    · intro k hk; cases hk
    · rw [← hevs, List.getLast?_concat]
    · rw [← hc', update_dataSources, List.insertIdx_length_self]
    · rw [← hc', update_dataSources]
      simp
  | some k =>
    by_cases hk : k < 0
    · rw [add_neg_index_eq showOf c d k hdes hk] at h
      simp at h
    · by_cases hlen : (c._dataSources.length : Int) < k
      · rw [add_big_index_eq showOf c d k hdes hk hlen] at h
        simp at h
      · rw [add_insert_eq showOf c d k hdes hk hlen] at h
        simp only [Except.ok.injEq, Prod.mk.injEq] at h
        obtain ⟨hc', hevs, hret⟩ := h
        have hle : k.toNat ≤ c._dataSources.length := by omega
        refine ⟨hret.symm, k.toNat, ?_, ?_, ?_, ?_, ?_⟩
        · intro hknone; cases hknone
        · intro k' hk'
          cases hk'
          omega
        · rw [← hevs, List.getLast?_concat]
        · rw [← hc', update_dataSources]
        · rw [← hc', update_dataSources, List.length_insertIdx _ _ hle]

/-- C1 (witness): the amended theorem instantiated at the concrete call
`add(5)` on the empty collection, whose trace is `[added 5 0]` and whose JS
return value is `undefined`. -/
theorem add_eq_insert_and_emits_index_witness :
    (none : Option Nat) = none ∧
    ∃ i : Nat,
      ((none : Option Int) = none →
        i = DataSourceCollection.empty._dataSources.length) ∧
      (∀ k : Int, (none : Option Int) = some k → (i : Int) = k) ∧
      [DataSourceEvent.added 5 0].getLast? =
        some (DataSourceEvent.added 5 i) ∧
      addWitnessState._dataSources =
        DataSourceCollection.empty._dataSources.insertIdx i 5 ∧
      addWitnessState._dataSources.length =
        DataSourceCollection.empty._dataSources.length + 1 :=
  add_eq_insert_and_emits_index (fun _ => true) DataSourceCollection.empty 5
    none addWitnessState [DataSourceEvent.added 5 0] none rfl

/-- C2 (counterexample): `add` does not check for pre-existing membership, so
adding the same handle to the empty collection twice yields the sequence
`[0, 0]`, which violates the no-duplicate-handles invariant. -/
theorem add_member_breaks_nodup_counterexample :
    duplicateAddState._dataSources = [0, 0] ∧
    ¬ duplicateAddState._dataSources.Nodup := by
  refine ⟨rfl, ?_⟩
  rw [show duplicateAddState._dataSources = [0, 0] from rfl]
  decide

theorem raiseToTop_none_eq (showOf : Nat → Bool) (c : DataSourceCollection)
    (hdes : c.destroyed = false) :
    c.raiseToTop showOf none = .error "dataSource is required." := by
  unfold DataSourceCollection.raiseToTop
  rw [hdes]
  rfl

theorem lowerToBottom_none_eq (showOf : Nat → Bool) (c : DataSourceCollection)
    (hdes : c.destroyed = false) :
    c.lowerToBottom showOf none = .error "dataSource is required." := by
  unfold DataSourceCollection.lowerToBottom
  rw [hdes]
  rfl

/-- C2 (amended): every structural mutation except an `add` of a handle that
is already a member preserves the no-duplicate-handles invariant; `add` does
not check membership, so re-adding a member (excluded here by hypothesis, and
shown to create a duplicate by the counterexample) is the one violating
case. -/
theorem applyOp_preserves_nodup (showOf : Nat → Bool)
    (c : DataSourceCollection) (op : MutOp) (c' : DataSourceCollection)
    (evs : List DataSourceEvent)
    (hnd : c._dataSources.Nodup)
    (hadd : ∀ d i, op = MutOp.add (some d) i → d ∉ c._dataSources)
    (h : applyOp showOf c op = .ok (c', evs)) :
    c'._dataSources.Nodup := by
  have hdes : c.destroyed = false := by
    cases hcd : c.destroyed
    · rfl
    · rw [applyOp_destroyed_eq showOf c op hcd] at h
      simp at h
  cases op with
  | add dOpt index =>
    cases dOpt with
    | none =>
      simp only [applyOp] at h
      rw [add_none_eq showOf c index hdes] at h
      simp [Except.map] at h
    | some d =>
      have hd : d ∉ c._dataSources := hadd d index rfl
      simp only [applyOp] at h
      cases index with
      | none =>
        rw [add_append_eq showOf c d hdes] at h
        simp only [Except.map, Except.ok.injEq, Prod.mk.injEq] at h
        obtain ⟨hc', _⟩ := h
        rw [← hc', update_dataSources, ← List.insertIdx_length_self]
        exact nodup_insertIdx _ _ _ le_rfl hd hnd
      | some k =>
        by_cases hk : k < 0
        · rw [add_neg_index_eq showOf c d k hdes hk] at h
          simp [Except.map] at h
        · by_cases hlen : (c._dataSources.length : Int) < k
          · rw [add_big_index_eq showOf c d k hdes hk hlen] at h
            simp [Except.map] at h
          · rw [add_insert_eq showOf c d k hdes hk hlen] at h
            simp only [Except.map, Except.ok.injEq, Prod.mk.injEq] at h
            obtain ⟨hc', _⟩ := h
            rw [← hc', update_dataSources]
            exact nodup_insertIdx _ _ _ (by omega) hd hnd
  | remove d dest =>
    simp only [applyOp] at h
    by_cases hd : d ∈ c._dataSources
    · rw [remove_mem_eq showOf c d dest hdes hd] at h
      simp only [Except.map, Except.ok.injEq, Prod.mk.injEq] at h
      obtain ⟨hc', _⟩ := h
      rw [← hc', update_dataSources]
      exact nodup_eraseIdx _ _ hnd
    · rw [remove_not_mem_eq showOf c d dest hdes hd] at h
      simp only [Except.map, Except.ok.injEq, Prod.mk.injEq] at h
      obtain ⟨hc', _⟩ := h
      rw [← hc']
      exact hnd
  | removeAll dest =>
    simp only [applyOp] at h
    rw [removeAll_eq c dest hdes] at h
    simp only [Except.ok.injEq, Prod.mk.injEq] at h
    obtain ⟨hc', _⟩ := h
    rw [← hc']
    simp
  | raise dOpt =>
    cases dOpt with
    | none =>
      simp only [applyOp] at h
      rw [raise_none_eq showOf c hdes] at h
      simp at h
    | some d =>
      simp only [applyOp] at h
      by_cases hd : d ∈ c._dataSources
      · rw [raise_mem_eq showOf c d hdes hd] at h
        have hlen : c._dataSources.indexOf d < c._dataSources.length :=
          List.indexOf_lt_length.mpr hd
        by_cases htop : c._dataSources.indexOf d + 1 < c._dataSources.length
        · rw [swapDataSources_raise_eq showOf c _ htop] at h
          simp only [Except.ok.injEq, Prod.mk.injEq] at h
          obtain ⟨hc', _⟩ := h
          rw [← hc', update_dataSources]
          show (swapList c._dataSources (c._dataSources.indexOf d)
            (c._dataSources.indexOf d + 1)).Nodup
          unfold swapList
          exact nodup_swap _ _ _ hlen htop hnd
        · have hidx : c._dataSources.indexOf d = c._dataSources.length - 1 := by
            omega
          rw [swapDataSources_top_noop showOf c _ (by omega) hidx] at h
          simp only [Except.ok.injEq, Prod.mk.injEq] at h
          obtain ⟨hc', _⟩ := h
          rw [← hc']
          exact hnd
      · rw [raise_not_mem_eq showOf c d hdes hd] at h
        simp at h
  | lower dOpt =>
    cases dOpt with
    | none =>
      simp only [applyOp] at h
      rw [lower_none_eq showOf c hdes] at h
      simp at h
    | some d =>
      simp only [applyOp] at h
      by_cases hd : d ∈ c._dataSources
      · rw [lower_mem_eq showOf c d hdes hd] at h
        have hlen : c._dataSources.indexOf d < c._dataSources.length :=
          List.indexOf_lt_length.mpr hd
        by_cases hbot : c._dataSources.indexOf d = 0
        · rw [swapDataSources_bottom_noop showOf c _ (by omega) hbot] at h
          simp only [Except.ok.injEq, Prod.mk.injEq] at h
          obtain ⟨hc', _⟩ := h
          rw [← hc']
          exact hnd
        · rw [swapDataSources_lower_eq showOf c _ (by omega) hlen] at h
          simp only [Except.ok.injEq, Prod.mk.injEq] at h
          obtain ⟨hc', _⟩ := h
          rw [← hc', update_dataSources]
          show (swapList c._dataSources (c._dataSources.indexOf d)
            (c._dataSources.indexOf d - 1)).Nodup
          unfold swapList
          exact nodup_swap _ _ _ hlen (by omega) hnd
      · rw [lower_not_mem_eq showOf c d hdes hd] at h
        simp at h
  | raiseToTop dOpt =>
    cases dOpt with
    | none =>
      simp only [applyOp] at h
      rw [raiseToTop_none_eq showOf c hdes] at h
      simp at h
    | some d =>
      simp only [applyOp] at h
      by_cases hd : d ∈ c._dataSources
      · by_cases hidx : c._dataSources.indexOf d = c._dataSources.length - 1
        · rw [raiseToTop_last_eq showOf c d hdes hd hidx] at h
          simp only [Except.ok.injEq, Prod.mk.injEq] at h
          obtain ⟨hc', _⟩ := h
          rw [← hc']
          exact hnd
        · rw [raiseToTop_move_eq showOf c d hdes hd hidx] at h
          simp only [Except.ok.injEq, Prod.mk.injEq] at h
          obtain ⟨hc', _⟩ := h
          rw [← hc', update_dataSources]
          rw [List.nodup_append]
          refine ⟨nodup_eraseIdx _ _ hnd, by simp, ?_⟩
          intro x hx hxd
          rw [List.mem_singleton] at hxd
          subst hxd
          exact not_mem_eraseIdx_indexOf _ hnd x hd hx
      · rw [raiseToTop_not_mem_eq showOf c d hdes hd] at h
        simp at h
  | lowerToBottom dOpt =>
    cases dOpt with
    | none =>
      simp only [applyOp] at h
      rw [lowerToBottom_none_eq showOf c hdes] at h
      simp at h
    | some d =>
      simp only [applyOp] at h
      by_cases hd : d ∈ c._dataSources
      · by_cases hidx : c._dataSources.indexOf d = 0
        · rw [lowerToBottom_first_eq showOf c d hdes hd hidx] at h
          simp only [Except.ok.injEq, Prod.mk.injEq] at h
          obtain ⟨hc', _⟩ := h
          rw [← hc']
          exact hnd
        · rw [lowerToBottom_move_eq showOf c d hdes hd hidx] at h
          simp only [Except.ok.injEq, Prod.mk.injEq] at h
          obtain ⟨hc', _⟩ := h
          rw [← hc', update_dataSources, List.nodup_cons]
          exact ⟨not_mem_eraseIdx_indexOf _ hnd d hd, nodup_eraseIdx _ _ hnd⟩
      · rw [lowerToBottom_not_mem_eq showOf c d hdes hd] at h
        simp at h

/-- C2 (witness): the amended theorem instantiated at adding the fresh handle
3 to the duplicate-free collection `[1, 2]`. -/
theorem applyOp_preserves_nodup_witness :
    nodupWitnessState._dataSources.Nodup :=
  applyOp_preserves_nodup (fun _ => true) twoElementCollection
    (MutOp.add (some 3) none) nodupWitnessState
    [DataSourceEvent.added 3 2]
    (by decide)
    (by intro d i heq; cases heq; decide)
    rfl

/-- C3: removing a member handle with `destroy = true` runs its effects in
the fixed order: the handle leaves the sequence, then the re-index/visibility
pass runs (contributing only `shownOrHidden` events), then the `removed`
notification carrying the handle and its previous index is emitted, and the
handle's `destroy()` is invoked only after that — the `removed` notification
is strictly before the destruction, which is the final effect. -/
theorem remove_ordering (showOf : Nat → Bool) (c : DataSourceCollection)
    (d : Nat) (hdes : c.destroyed = false) (hd : d ∈ c._dataSources) :
    ∃ (c' : DataSourceCollection) (updEvs : List DataSourceEvent),
      c.remove showOf d (some true) =
        .ok (c', true,
          updEvs ++ [DataSourceEvent.removed d (c._dataSources.indexOf d),
                     DataSourceEvent.destroyedDataSource d]) ∧
      c'._dataSources =
        c._dataSources.eraseIdx (c._dataSources.indexOf d) ∧
      updEvs =
        (DataSourceCollection._update showOf
          { c with _dataSources :=
              c._dataSources.eraseIdx (c._dataSources.indexOf d) }).2 ∧
      (∀ e ∈ updEvs, ∃ x i s, e = DataSourceEvent.shownOrHidden x i s) := by
  refine ⟨(DataSourceCollection._update showOf
      { c with _dataSources :=
          c._dataSources.eraseIdx (c._dataSources.indexOf d) }).1,
    (DataSourceCollection._update showOf
      { c with _dataSources :=
          c._dataSources.eraseIdx (c._dataSources.indexOf d) }).2,
    ?_, update_dataSources _ _, rfl, update_events_shape _ _⟩
  rw [remove_mem_eq showOf c d (some true) hdes hd]
  simp [defaultValue]

/-- C3 (witness): the ordering theorem instantiated at removing handle 3 from
the one-element collection `[3]`. -/
theorem remove_ordering_witness :
    ∃ (c' : DataSourceCollection) (updEvs : List DataSourceEvent),
      singletonCollection.remove (fun _ => true) 3 (some true) =
        .ok (c', true,
          updEvs ++ [DataSourceEvent.removed 3
                       (singletonCollection._dataSources.indexOf 3),
                     DataSourceEvent.destroyedDataSource 3]) ∧
      c'._dataSources =
        singletonCollection._dataSources.eraseIdx
          (singletonCollection._dataSources.indexOf 3) ∧
      updEvs =
        (DataSourceCollection._update (fun _ => true)
          { singletonCollection with _dataSources :=
              singletonCollection._dataSources.eraseIdx (singletonCollection._dataSources.indexOf 3) }).2 ∧
      (∀ e ∈ updEvs, ∃ x i s, e = DataSourceEvent.shownOrHidden x i s) :=
  remove_ordering (fun _ => true) singletonCollection 3 rfl (by decide)

/-- C4 (counterexample): after the successful mutating call that adds handle
0 a second time, the sequence is `[0, 0]` and the handle at index 0 has
stored position 1, not 0 — the walk wrote both indices into the same handle,
last one winning — so the position-consistency property fails on the state
that call returns. -/
theorem posOk_counterexample :
    duplicateAddState._dataSources = [0, 0] ∧
    duplicateAddState._dataSourceIndex 0 = some 1 ∧
    ¬ PosOk duplicateAddState := by
  refine ⟨rfl, rfl, ?_⟩
  intro hpos
  have h0 : (0 : Nat) < duplicateAddState._dataSources.length := by
    rw [show duplicateAddState._dataSources = [0, 0] from rfl]
    decide
  have h := hpos 0 h0
  rw [show duplicateAddState._dataSources.get ⟨0, h0⟩ = 0 from rfl,
    show duplicateAddState._dataSourceIndex 0 = some 1 from rfl] at h
  exact absurd h (by decide)

/-- C4 (amended): after every successful mutating operation, provided the
positions were consistent before the call (as they are on every
API-produced state) and the resulting sequence is duplicate-free (the
counterexample shows a duplicated sequence breaks the property), every
handle's stored position equals its index in the sequence. -/
theorem applyOp_posOk (showOf : Nat → Bool) (c : DataSourceCollection)
    (op : MutOp) (c' : DataSourceCollection) (evs : List DataSourceEvent)
    (hpos : PosOk c)
    (h : applyOp showOf c op = .ok (c', evs))
    (hnd : c'._dataSources.Nodup) :
    PosOk c' := by
  have hdes : c.destroyed = false := by
    cases hcd : c.destroyed
    · rfl
    · rw [applyOp_destroyed_eq showOf c op hcd] at h
      simp at h
  cases op with
  | add dOpt index =>
    cases dOpt with
    | none =>
      simp only [applyOp] at h
      rw [add_none_eq showOf c index hdes] at h
      simp [Except.map] at h
    | some d =>
      simp only [applyOp] at h
      cases index with
      | none =>
        rw [add_append_eq showOf c d hdes] at h
        simp only [Except.map, Except.ok.injEq, Prod.mk.injEq] at h
        obtain ⟨hc', _⟩ := h
        rw [← hc'] at hnd ⊢
        rw [update_dataSources] at hnd
        exact update_posOk showOf _ hnd
      | some k =>
        by_cases hk : k < 0
        · rw [add_neg_index_eq showOf c d k hdes hk] at h
          simp [Except.map] at h
        · by_cases hlen : (c._dataSources.length : Int) < k
          · rw [add_big_index_eq showOf c d k hdes hk hlen] at h
            simp [Except.map] at h
          · rw [add_insert_eq showOf c d k hdes hk hlen] at h
            simp only [Except.map, Except.ok.injEq, Prod.mk.injEq] at h
            obtain ⟨hc', _⟩ := h
            rw [← hc'] at hnd ⊢
            rw [update_dataSources] at hnd
            exact update_posOk showOf _ hnd
  | remove d dest =>
    simp only [applyOp] at h
    by_cases hd : d ∈ c._dataSources
    · rw [remove_mem_eq showOf c d dest hdes hd] at h
      simp only [Except.map, Except.ok.injEq, Prod.mk.injEq] at h
      obtain ⟨hc', _⟩ := h
      rw [← hc'] at hnd ⊢
      rw [update_dataSources] at hnd
      exact update_posOk showOf _ hnd
    · rw [remove_not_mem_eq showOf c d dest hdes hd] at h
      simp only [Except.map, Except.ok.injEq, Prod.mk.injEq] at h
      obtain ⟨hc', _⟩ := h
      rw [← hc']
      exact hpos
  | removeAll dest =>
    simp only [applyOp] at h
    rw [removeAll_eq c dest hdes] at h
    simp only [Except.ok.injEq, Prod.mk.injEq] at h
    obtain ⟨hc', _⟩ := h
    rw [← hc']
    intro i hi
    exact absurd hi (by simp)
  | raise dOpt =>
    cases dOpt with
    | none =>
      simp only [applyOp] at h
      rw [raise_none_eq showOf c hdes] at h
      simp at h
    | some d =>
      simp only [applyOp] at h
      by_cases hd : d ∈ c._dataSources
      · rw [raise_mem_eq showOf c d hdes hd] at h
        by_cases htop : c._dataSources.indexOf d + 1 < c._dataSources.length
        · rw [swapDataSources_raise_eq showOf c _ htop] at h
          simp only [Except.ok.injEq, Prod.mk.injEq] at h
          obtain ⟨hc', _⟩ := h
          rw [← hc'] at hnd ⊢
          rw [update_dataSources] at hnd
          exact update_posOk showOf _ hnd
        · have hlen : c._dataSources.indexOf d < c._dataSources.length :=
            List.indexOf_lt_length.mpr hd
          have hidx : c._dataSources.indexOf d =
              c._dataSources.length - 1 := by omega
          rw [swapDataSources_top_noop showOf c _ (by omega) hidx] at h
          simp only [Except.ok.injEq, Prod.mk.injEq] at h
          obtain ⟨hc', _⟩ := h
          rw [← hc']
          exact hpos
      · rw [raise_not_mem_eq showOf c d hdes hd] at h
        simp at h
  | lower dOpt =>
    cases dOpt with
    | none =>
      simp only [applyOp] at h
      rw [lower_none_eq showOf c hdes] at h
      simp at h
    | some d =>
      simp only [applyOp] at h
      by_cases hd : d ∈ c._dataSources
      · rw [lower_mem_eq showOf c d hdes hd] at h
        have hlen : c._dataSources.indexOf d < c._dataSources.length :=
          List.indexOf_lt_length.mpr hd
        by_cases hbot : c._dataSources.indexOf d = 0
        · rw [swapDataSources_bottom_noop showOf c _ (by omega) hbot] at h
          simp only [Except.ok.injEq, Prod.mk.injEq] at h
          obtain ⟨hc', _⟩ := h
          rw [← hc']
          exact hpos
        · rw [swapDataSources_lower_eq showOf c _ (by omega) hlen] at h
          simp only [Except.ok.injEq, Prod.mk.injEq] at h
          obtain ⟨hc', _⟩ := h
          rw [← hc'] at hnd ⊢
          rw [update_dataSources] at hnd
          exact update_posOk showOf _ hnd
      · rw [lower_not_mem_eq showOf c d hdes hd] at h
        simp at h
  | raiseToTop dOpt =>
    cases dOpt with
    | none =>
      simp only [applyOp] at h
      rw [raiseToTop_none_eq showOf c hdes] at h
      simp at h
    | some d =>
      simp only [applyOp] at h
      by_cases hd : d ∈ c._dataSources
      · by_cases hidx : c._dataSources.indexOf d = c._dataSources.length - 1
        · rw [raiseToTop_last_eq showOf c d hdes hd hidx] at h
          simp only [Except.ok.injEq, Prod.mk.injEq] at h
          obtain ⟨hc', _⟩ := h
          rw [← hc']
          exact hpos
        · rw [raiseToTop_move_eq showOf c d hdes hd hidx] at h
          simp only [Except.ok.injEq, Prod.mk.injEq] at h
          obtain ⟨hc', _⟩ := h
          rw [← hc'] at hnd ⊢
          rw [update_dataSources] at hnd
          exact update_posOk showOf _ hnd
      · rw [raiseToTop_not_mem_eq showOf c d hdes hd] at h
        simp at h
  | lowerToBottom dOpt =>
    cases dOpt with
    | none =>
      simp only [applyOp] at h
      rw [lowerToBottom_none_eq showOf c hdes] at h
      simp at h
    | some d =>
      simp only [applyOp] at h
      by_cases hd : d ∈ c._dataSources
      · by_cases hidx : c._dataSources.indexOf d = 0
        · rw [lowerToBottom_first_eq showOf c d hdes hd hidx] at h
          simp only [Except.ok.injEq, Prod.mk.injEq] at h
          obtain ⟨hc', _⟩ := h
          rw [← hc']
          exact hpos
        · rw [lowerToBottom_move_eq showOf c d hdes hd hidx] at h
          simp only [Except.ok.injEq, Prod.mk.injEq] at h
          obtain ⟨hc', _⟩ := h
          rw [← hc'] at hnd ⊢
          rw [update_dataSources] at hnd
          exact update_posOk showOf _ hnd
      · rw [lowerToBottom_not_mem_eq showOf c d hdes hd] at h
        simp at h

/-- C4 (witness): the amended theorem instantiated at adding the fresh handle
3 to the position-consistent collection `[1, 2]`. -/
theorem applyOp_posOk_witness : PosOk nodupWitnessState :=
  applyOp_posOk (fun _ => true) twoElementCollection
    (MutOp.add (some 3) none) nodupWitnessState
    [DataSourceEvent.added 3 2]
    (by intro i hi
        have h2 : i < 2 := hi
        interval_cases i <;> rfl)
    rfl
    (by decide)

/-- C5: on a duplicate-free collection the re-index/visibility pass emits
exactly one `shownOrHidden` event for each handle whose current `show`
differs from a *defined* last observed value (a freshly added handle, whose
`_show` is still undefined, produces nothing), the events coming after the
whole walk, in walk order, each carrying the handle, its current position in
the sequence, and its current `show` value; the pass leaves the sequence
itself unchanged. -/
theorem update_shownOrHidden_spec (showOf : Nat → Bool)
    (c : DataSourceCollection) (hnd : c._dataSources.Nodup) :
    (DataSourceCollection._update showOf c).2 =
      (c._dataSources.filter (shTransition c._show showOf)).map
        (fun d => DataSourceEvent.shownOrHidden d
          (c._dataSources.indexOf d) (showOf d)) ∧
    (DataSourceCollection._update showOf c).1._dataSources =
      c._dataSources :=
  ⟨update_events_eq showOf c hnd, update_dataSources showOf c⟩

/-- C5 (witness): with A(show=true), B(show=false), C(show=true) recorded and
B's `show` flipped to true, the next pass emits exactly one `shownOrHidden`
event, for B with position 1 and value true. -/
theorem update_shownOrHidden_spec_witness :
    ((DataSourceCollection._update (fun _ => true)
        visibilityExampleCollection).2 =
      (visibilityExampleCollection._dataSources.filter
          (shTransition visibilityExampleCollection._show (fun _ => true))).map
        (fun d => DataSourceEvent.shownOrHidden d
          (visibilityExampleCollection._dataSources.indexOf d) true) ∧
     (DataSourceCollection._update (fun _ => true)
        visibilityExampleCollection).1._dataSources =
       visibilityExampleCollection._dataSources) ∧
    (DataSourceCollection._update (fun _ => true)
        visibilityExampleCollection).2 =
      [DataSourceEvent.shownOrHidden 1 1 true] :=
  ⟨update_shownOrHidden_spec (fun _ => true) visibilityExampleCollection
    (by decide), rfl⟩

/-- C6: `removeAll` emits, for each handle in current order, its `removed`
event carrying its current index, immediately followed (when destroying,
which is the default) by that handle's `destroy()`, all before the sequence
is replaced by the empty one; no `shownOrHidden` event is emitted and the
shadow fields are untouched — the per-item re-index/visibility pass does not
run. -/
theorem removeAll_spec (c : DataSourceCollection) (destroy : Option Bool)
    (hdes : c.destroyed = false) :
    ∃ tr : List DataSourceEvent,
      c.removeAll destroy = .ok ({ c with _dataSources := [] }, tr) ∧
      tr = (List.enumFrom 0 c._dataSources).flatMap (fun p =>
        DataSourceEvent.removed p.2 p.1 ::
          (if defaultValue destroy true
           then [DataSourceEvent.destroyedDataSource p.2] else [])) ∧
      (∀ e ∈ tr, ∀ x i s, e ≠ DataSourceEvent.shownOrHidden x i s) := by
  refine ⟨removeAllLoop c._dataSources 0 (defaultValue destroy true),
    removeAll_eq c destroy hdes, removeAllLoop_eq _ _ _, ?_⟩
  intro e he x i s
  rw [removeAllLoop_eq] at he
  rw [List.mem_flatMap] at he
  obtain ⟨p, _, hp⟩ := he
  rcases List.mem_cons.mp hp with h | h
  · subst h
    intro hcontra
    cases hcontra
  · split at h
    · rw [List.mem_singleton] at h
      subst h
      intro hcontra
      cases hcontra
    · cases h

/-- C6 (witness): `removeAll` with the destroy argument omitted (defaulting
to true) on the collection `[1, 2]`. -/
theorem removeAll_spec_witness :
    ∃ tr : List DataSourceEvent,
      twoElementCollection.removeAll none =
        .ok ({ twoElementCollection with _dataSources := [] }, tr) ∧
      tr = (List.enumFrom 0 twoElementCollection._dataSources).flatMap
        (fun p => DataSourceEvent.removed p.2 p.1 ::
          (if defaultValue none true
           then [DataSourceEvent.destroyedDataSource p.2] else [])) ∧
      (∀ e ∈ tr, ∀ x i s, e ≠ DataSourceEvent.shownOrHidden x i s) :=
  removeAll_spec twoElementCollection none rfl

/-- C7: `raise` on the topmost member and `lower` on the bottommost member
are no-ops that leave the whole state unchanged and emit no `moved` event;
`raise` on any other member swaps it with its immediate successor and emits
one `moved` event carrying the handle, its new index and its old index (any
`shownOrHidden` events of the accompanying pass preceding it); `raise` and
`lower` on a non-member fail with the not-in-this-collection error. -/
theorem raise_lower_spec (showOf : Nat → Bool) (c : DataSourceCollection)
    (d : Nat) (hdes : c.destroyed = false) :
    (d ∈ c._dataSources →
      c._dataSources.indexOf d = c._dataSources.length - 1 →
      c.raise showOf (some d) = .ok (c, [])) ∧
    (d ∈ c._dataSources →
      c._dataSources.indexOf d + 1 < c._dataSources.length →
      ∃ (c' : DataSourceCollection) (updEvs : List DataSourceEvent),
        c.raise showOf (some d) =
          .ok (c', updEvs ++
            [DataSourceEvent.moved d (c._dataSources.indexOf d + 1)
              (c._dataSources.indexOf d)]) ∧
        (∀ e ∈ updEvs, ∃ x i s, e = DataSourceEvent.shownOrHidden x i s) ∧
        c'._dataSources.length = c._dataSources.length ∧
        c'._dataSources[c._dataSources.indexOf d]? =
          c._dataSources[c._dataSources.indexOf d + 1]? ∧
        c'._dataSources[c._dataSources.indexOf d + 1]? = some d ∧
        (∀ k, k ≠ c._dataSources.indexOf d →
          k ≠ c._dataSources.indexOf d + 1 →
          c'._dataSources[k]? = c._dataSources[k]?)) ∧
    (d ∈ c._dataSources →
      c._dataSources.indexOf d = 0 →
      c.lower showOf (some d) = .ok (c, [])) ∧
    (d ∉ c._dataSources →
      c.raise showOf (some d) =
          .error "dataSource is not in this collection." ∧
        c.lower showOf (some d) =
          .error "dataSource is not in this collection.") := by
  refine ⟨?_, ?_, ?_, ?_⟩
  · intro hd hidx
    have hlen : 0 < c._dataSources.length :=
      lt_of_le_of_lt (Nat.zero_le _) (List.indexOf_lt_length.mpr hd)
    rw [raise_mem_eq showOf c d hdes hd,
      swapDataSources_top_noop showOf c _ hlen hidx]
  · intro hd hlt
    have hlen : c._dataSources.indexOf d < c._dataSources.length :=
      List.indexOf_lt_length.mpr hd
    have hgetd : c._dataSources.getD (c._dataSources.indexOf d) 0 = d := by
      rw [List.getD_eq_getElem _ _ hlen]
      exact List.getElem_indexOf hlen
    refine ⟨(DataSourceCollection._update showOf
        { c with _dataSources :=
            swapList c._dataSources (c._dataSources.indexOf d) (c._dataSources.indexOf d + 1) }).1,
      (DataSourceCollection._update showOf
        { c with _dataSources :=
            swapList c._dataSources (c._dataSources.indexOf d) (c._dataSources.indexOf d + 1) }).2,
      ?_, update_events_shape _ _, ?_, ?_, ?_, ?_⟩
    · rw [raise_mem_eq showOf c d hdes hd,
        swapDataSources_raise_eq showOf c _ hlt, hgetd]
    · rw [update_dataSources]
      unfold swapList
      simp [List.length_set]
    · rw [update_dataSources]
      unfold swapList
      rw [List.getElem?_set, if_neg (by omega), List.getElem?_set,
        if_pos rfl, if_pos hlen, List.getD_eq_getElem _ _ hlt,
        List.getElem?_eq_getElem hlt]
    · rw [update_dataSources]
      unfold swapList
      rw [List.getElem?_set, if_pos rfl,
        if_pos (by rw [List.length_set]; omega), hgetd]
    · intro k hk1 hk2
      rw [update_dataSources]
      unfold swapList
      rw [List.getElem?_set, if_neg (by omega), List.getElem?_set,
        if_neg (by omega)]
  · intro hd hidx
    have hlen : 0 < c._dataSources.length :=
      Nat.pos_of_ne_zero (by
        intro h0
        rw [List.length_eq_zero] at h0
        rw [h0] at hd
        exact absurd hd (List.not_mem_nil d))
    rw [lower_mem_eq showOf c d hdes hd,
      swapDataSources_bottom_noop showOf c _ hlen hidx]
  · intro hd
    exact ⟨raise_not_mem_eq showOf c d hdes hd,
      lower_not_mem_eq showOf c d hdes hd⟩

/-- C7 (witness): on the collection `[0, 1, 2]`, `raise 2` and `lower 0` are
silent no-ops, `raise 0` yields `[1, 0, 2]` with the single `moved (0, 1, 0)`
event, and `raise`/`lower` of the non-member 99 fail with the
not-in-this-collection error. -/
theorem raise_lower_spec_witness :
    visibilityExampleCollection.raise envABC (some 2) =
      .ok (visibilityExampleCollection, []) ∧
    (∃ (c' : DataSourceCollection) (updEvs : List DataSourceEvent),
      visibilityExampleCollection.raise envABC (some 0) =
        .ok (c', updEvs ++ [DataSourceEvent.moved 0 1 0]) ∧
      (∀ e ∈ updEvs, ∃ x i s, e = DataSourceEvent.shownOrHidden x i s) ∧
      c'._dataSources.length = 3 ∧
      c'._dataSources[0]? = some 1 ∧
      c'._dataSources[1]? = some 0 ∧
      (∀ k, k ≠ 0 → k ≠ 1 →
        c'._dataSources[k]? =
          visibilityExampleCollection._dataSources[k]?)) ∧
    visibilityExampleCollection.lower envABC (some 0) =
      .ok (visibilityExampleCollection, []) ∧
    (visibilityExampleCollection.raise envABC (some 99) =
        .error "dataSource is not in this collection." ∧
      visibilityExampleCollection.lower envABC (some 99) =
        .error "dataSource is not in this collection.") ∧
    Except.map (fun r => (r.1._dataSources, r.2))
        (visibilityExampleCollection.raise envABC (some 0)) =
      .ok ([1, 0, 2], [DataSourceEvent.moved 0 1 0]) := by
  refine ⟨?_, ?_, ?_, ?_, rfl⟩
  · exact (raise_lower_spec envABC visibilityExampleCollection 2 rfl).1
      (by decide) (by decide)
  · exact (raise_lower_spec envABC visibilityExampleCollection 0 rfl).2.1
      (by decide) (by decide)
  · exact (raise_lower_spec envABC visibilityExampleCollection 0
      rfl).2.2.1 (by decide) (by decide)
  · exact (raise_lower_spec envABC visibilityExampleCollection 99
      rfl).2.2.2 (by decide)

/-- C8: a failed `add` raises its error before mutating anything — a missing
handle or an index outside `[0, length]` produces the corresponding
`DeveloperError` and no new state — and `remove` of a non-member returns
`false` with the collection unchanged, no events and no destruction. -/
theorem failed_add_remove_spec (showOf : Nat → Bool)
    (c : DataSourceCollection) (hdes : c.destroyed = false) :
    c.add showOf none none = .error "dataSource is required." ∧
    (∀ (d : Nat) (k : Int), k < 0 →
      c.add showOf (some d) (some k) =
        .error "index must be greater than or equal to zero.") ∧
    (∀ (d : Nat) (k : Int), (c._dataSources.length : Int) < k →
      c.add showOf (some d) (some k) =
        .error
          "index must be less than or equal to the number of data sources.") ∧
    (∀ (d : Nat) (destroy : Option Bool), d ∉ c._dataSources →
      c.remove showOf d destroy = .ok (c, false, [])) := by
  refine ⟨add_none_eq showOf c none hdes, ?_, ?_, ?_⟩
  · intro d k hk
    exact add_neg_index_eq showOf c d k hdes hk
  · intro d k hk
    exact add_big_index_eq showOf c d k hdes (by omega) hk
  · intro d destroy hd
    exact remove_not_mem_eq showOf c d destroy hdes hd

/-- C8 (witness): the failure results instantiated on the collection
`[1, 2]`: missing handle, index −1, index 5, and removal of the non-member
9. -/
theorem failed_add_remove_spec_witness :
    twoElementCollection.add (fun _ => true) none none =
      .error "dataSource is required." ∧
    twoElementCollection.add (fun _ => true) (some 7) (some (-1)) =
      .error "index must be greater than or equal to zero." ∧
    twoElementCollection.add (fun _ => true) (some 7) (some 5) =
      .error
        "index must be less than or equal to the number of data sources." ∧
    twoElementCollection.remove (fun _ => true) 9 none =
      .ok (twoElementCollection, false, []) := by
  refine ⟨?_, ?_, ?_, ?_⟩
  · exact (failed_add_remove_spec (fun _ => true) twoElementCollection rfl).1
  · exact (failed_add_remove_spec (fun _ => true) twoElementCollection
      rfl).2.1 7 (-1) (by decide)
  · exact (failed_add_remove_spec (fun _ => true) twoElementCollection
      rfl).2.2.1 7 5 (by decide)
  · exact (failed_add_remove_spec (fun _ => true) twoElementCollection
      rfl).2.2.2 9 none (by decide)

/-- C9: `destroy()` behaves as `removeAll(true)` followed by marking the
registry unusable (same trace, same cleared sequence, destroyed flag set);
afterwards `isDestroyed` answers true, while every registry operation —
every structural mutation (in particular `add`), the lookups, `get`,
`getLength`, and `destroy` itself — fails with the destroyed-state error
instead of silently succeeding. -/
theorem destroy_spec (c : DataSourceCollection)
    (hdes : c.destroyed = false) :
    ∃ (c1 : DataSourceCollection) (tr : List DataSourceEvent),
      c.removeAll (some true) = .ok (c1, tr) ∧
      c.destroy = .ok ({ c1 with destroyed := true }, tr) ∧
      DataSourceCollection.isDestroyed { c1 with destroyed := true } =
        true ∧
      (∀ (showOf : Nat → Bool) (op : MutOp),
        applyOp showOf { c1 with destroyed := true } op =
          .error destroyedError) ∧
      (∀ d, DataSourceCollection.indexOf { c1 with destroyed := true } d =
        .error destroyedError) ∧
      (∀ d, DataSourceCollection.contains { c1 with destroyed := true } d =
        .error destroyedError) ∧
      (∀ i, DataSourceCollection.get { c1 with destroyed := true } i =
        .error destroyedError) ∧
      DataSourceCollection.getLength { c1 with destroyed := true } =
        .error destroyedError ∧
      DataSourceCollection.destroy { c1 with destroyed := true } =
        .error destroyedError := by
  refine ⟨{ c with _dataSources := [] },
    removeAllLoop c._dataSources 0 true,
    ?_, ?_, rfl, ?_, ?_, ?_, ?_, ?_, ?_⟩
  · rw [removeAll_eq c (some true) hdes]
    rfl
  · rw [destroy_eq c hdes]
  · intro showOf op
    exact applyOp_destroyed_eq showOf _ op rfl
  · intro d
    exact indexOf_destroyed_eq _ d rfl
  · intro d
    exact contains_destroyed_eq _ d rfl
  · intro i
    exact get_destroyed_eq _ i rfl
  · exact getLength_destroyed_eq _ rfl
  · exact destroy_destroyed_eq _ rfl

/-- C9 (witness): the destroy behaviour instantiated on the one-element
collection `[3]`. -/
theorem destroy_spec_witness :
    ∃ (c1 : DataSourceCollection) (tr : List DataSourceEvent),
      singletonCollection.removeAll (some true) = .ok (c1, tr) ∧
      singletonCollection.destroy = .ok ({ c1 with destroyed := true }, tr) ∧
      DataSourceCollection.isDestroyed { c1 with destroyed := true } =
        true ∧
      (∀ (showOf : Nat → Bool) (op : MutOp),
        applyOp showOf { c1 with destroyed := true } op =
          .error destroyedError) ∧
      (∀ d, DataSourceCollection.indexOf { c1 with destroyed := true } d =
        .error destroyedError) ∧
      (∀ d, DataSourceCollection.contains { c1 with destroyed := true } d =
        .error destroyedError) ∧
      (∀ i, DataSourceCollection.get { c1 with destroyed := true } i =
        .error destroyedError) ∧
      DataSourceCollection.getLength { c1 with destroyed := true } =
        .error destroyedError ∧
      DataSourceCollection.destroy { c1 with destroyed := true } =
        .error destroyedError :=
  destroy_spec singletonCollection rfl

/-- C10: the four no-op reorder paths — `raise` of the topmost member,
`raiseToTop` of the topmost member, `lower` of the bottommost member and
`lowerToBottom` of the bottommost member — return early without running the
re-index/visibility pass: the state (including every handle's `_show` and
`_dataSourceIndex` shadow fields) is returned unchanged and no event of any
kind is emitted, even when some member's `show` flag has changed since the
last pass; such a pending transition is reported once the pass next runs, as
the pass's event list is then non-empty. -/
theorem noop_reorder_spec (showOf : Nat → Bool) (c : DataSourceCollection)
    (d : Nat) (hdes : c.destroyed = false) (hd : d ∈ c._dataSources) :
    (c._dataSources.indexOf d = c._dataSources.length - 1 →
      c.raise showOf (some d) = .ok (c, []) ∧
      c.raiseToTop showOf (some d) = .ok (c, [])) ∧
    (c._dataSources.indexOf d = 0 →
      c.lower showOf (some d) = .ok (c, []) ∧
      c.lowerToBottom showOf (some d) = .ok (c, [])) ∧
    (c._dataSources.Nodup →
      ∀ x ∈ c._dataSources, shTransition c._show showOf x = true →
        (DataSourceCollection._update showOf c).2 ≠ []) := by
  have hlen : 0 < c._dataSources.length :=
    lt_of_le_of_lt (Nat.zero_le _) (List.indexOf_lt_length.mpr hd)
  refine ⟨?_, ?_, ?_⟩
  · intro hidx
    constructor
    · rw [raise_mem_eq showOf c d hdes hd,
        swapDataSources_top_noop showOf c _ hlen hidx]
    · exact raiseToTop_last_eq showOf c d hdes hd hidx
  · intro hidx
    constructor
    · rw [lower_mem_eq showOf c d hdes hd,
        swapDataSources_bottom_noop showOf c _ hlen hidx]
    · exact lowerToBottom_first_eq showOf c d hdes hd hidx
  · intro hnd x hx htr heq
    rw [update_events_eq showOf c hnd] at heq
    have hmem : x ∈ c._dataSources.filter (shTransition c._show showOf) :=
      List.mem_filter.mpr ⟨hx, htr⟩
    rw [List.map_eq_nil_iff] at heq
    rw [heq] at hmem
    exact absurd hmem (List.not_mem_nil x)

/-- C10 (witness): on the collection `[0, 1, 2]` with B = 1's `show` flipped
to true since the last pass, `raise 2`, `raiseToTop 2`, `lower 0` and
`lowerToBottom 0` all return the state unchanged with no events, while the
pass, once it does run, emits the pending transition `(1, 1, true)`. -/
theorem noop_reorder_spec_witness :
    (visibilityExampleCollection.raise (fun _ => true) (some 2) =
        .ok (visibilityExampleCollection, []) ∧
      visibilityExampleCollection.raiseToTop (fun _ => true) (some 2) =
        .ok (visibilityExampleCollection, [])) ∧
    (visibilityExampleCollection.lower (fun _ => true) (some 0) =
        .ok (visibilityExampleCollection, []) ∧
      visibilityExampleCollection.lowerToBottom (fun _ => true) (some 0) =
        .ok (visibilityExampleCollection, [])) ∧
    (DataSourceCollection._update (fun _ => true)
        visibilityExampleCollection).2 ≠ [] ∧
    (DataSourceCollection._update (fun _ => true)
        visibilityExampleCollection).2 =
      [DataSourceEvent.shownOrHidden 1 1 true] := by
  refine ⟨?_, ?_, ?_, rfl⟩
  · exact (noop_reorder_spec (fun _ => true) visibilityExampleCollection 2
      rfl (by decide)).1 (by decide)
  · exact (noop_reorder_spec (fun _ => true) visibilityExampleCollection 0
      rfl (by decide)).2.1 (by decide)
  · exact (noop_reorder_spec (fun _ => true) visibilityExampleCollection 2
      rfl (by decide)).2.2 (by decide) 1 (by decide) (by decide)
